import Mathlib

/-!
Verification of the katichai/katich semantic code-index core.

The Go sources embedded here are:
- internal/embeddings/similarity.go (cosineSimilarity, SimilaritySearch.Search,
  SimilaritySearch.FindDuplicates, DuplicateDetector.DetectDuplicates,
  OllamaProvider / OpenAIProvider / HybridProvider),
- the embeddings generator file (CodeEmbedding, EmbeddingIndex,
  Generator.GenerateForAnalysis, Generator.SaveIndex, LoadIndex),
- internal/analysis/parser_go.go (GoParser.extractFunction,
  GoParser.calculateComplexity),
- internal/cmd/context.go (runContextBuild and the context build flags).

Modelling conventions: Go float32/float64 values are modelled as real
numbers; Go slices as Lean lists; Go maps iterated in a fixed list order;
fallible Go functions return Except.  Network calls made by the embedding
providers are modelled by explicit per-call behaviours (what the backend
would answer if consulted), threaded through the state machine.
-/

namespace Katichai

/-- Mirrors embeddings.CodeEmbedding: one embedded code unit.
Field names follow the Go struct; the vector is a list of reals. -/
structure CodeEmbedding where
  id : String
  filePath : String
  funcName : String
  startLine : Int
  endLine : Int
  code : String
  embedding : List ℝ
  language : String

/-- Mirrors embeddings.EmbeddingIndex: all embeddings plus index metadata. -/
structure EmbeddingIndex where
  embeddings : List CodeEmbedding
  dimension : Nat
  provider : String
  version : String

/-- Mirrors embeddings.SimilarityResult: a CodeEmbedding (embedded struct in
Go, a field here) together with its cosine similarity to the query. -/
structure SimilarityResult where
  entry : CodeEmbedding
  similarity : ℝ

/-- The running dot product accumulated by the loop in cosineSimilarity:
dotProduct += a[i] * b[i] over the common indices. -/
def dotProduct (a b : List ℝ) : ℝ :=
  (List.zipWith (fun x y => x * y) a b).sum

/-- The running sum of squares accumulated by the loop in cosineSimilarity:
normA += a[i] * a[i] (the Go variable normA holds the squared norm). -/
def sumSq (a : List ℝ) : ℝ :=
  dotProduct a a

/-- Mirrors cosineSimilarity in similarity.go: length mismatch returns 0,
either zero norm returns 0, otherwise dot(a,b) / (sqrt(normA)*sqrt(normB)). -/
noncomputable def cosineSimilarity (a b : List ℝ) : ℝ :=
  if a.length ≠ b.length then 0
  else if sumSq a = 0 ∨ sumSq b = 0 then 0
  else dotProduct a b / (Real.sqrt (sumSq a) * Real.sqrt (sumSq b))

theorem sumSq_cons (x : ℝ) (xs : List ℝ) : sumSq (x :: xs) = x * x + sumSq xs := by
  simp [sumSq, dotProduct]

theorem sumSq_nonneg (a : List ℝ) : 0 ≤ sumSq a := by
  induction a with
  | nil => simp [sumSq, dotProduct]
  | cons x xs ih =>
    rw [sumSq_cons]
    have hx : 0 ≤ x * x := mul_self_nonneg x
    linarith

theorem sumSq_pos_of_mem (a : List ℝ) (x : ℝ) (hmem : x ∈ a) (hx : x ≠ 0) :
    0 < sumSq a := by
  induction a with
  | nil => cases hmem
  | cons y ys ih =>
    rw [sumSq_cons]
    rcases List.mem_cons.mp hmem with h | h
    · subst h
      have hpos : 0 < x * x := mul_self_pos.mpr hx
      linarith [sumSq_nonneg ys]
    · have := ih h
      linarith [mul_self_nonneg y]

/-- cosineSimilarity on equal-length vectors with both norms nonzero is the
normalized dot product. -/
theorem cosineSimilarity_eq (a b : List ℝ) (hlen : a.length = b.length)
    (ha : sumSq a ≠ 0) (hb : sumSq b ≠ 0) :
    cosineSimilarity a b = dotProduct a b / (Real.sqrt (sumSq a) * Real.sqrt (sumSq b)) := by
  unfold cosineSimilarity
  rw [if_neg (by simp [hlen]), if_neg (by simp [ha, hb])]

/-- cosineSimilarity returns 0 whenever either norm is 0. -/
theorem cosineSimilarity_zero_norm (a b : List ℝ)
    (h : sumSq a = 0 ∨ sumSq b = 0) : cosineSimilarity a b = 0 := by
  unfold cosineSimilarity
  by_cases hlen : a.length = b.length
  · rw [if_neg (by simp [hlen]), if_pos h]
  · rw [if_pos (by simp [hlen])]

/-- cosineSimilarity of a nonzero vector with itself is exactly 1. -/
theorem cosineSimilarity_self (v : List ℝ) (h : sumSq v ≠ 0) :
    cosineSimilarity v v = 1 := by
  have hpos : 0 < sumSq v := lt_of_le_of_ne (sumSq_nonneg v) (Ne.symm h)
  rw [cosineSimilarity_eq v v rfl h h]
  have hdot : dotProduct v v = sumSq v := rfl
  rw [hdot, Real.mul_self_sqrt (le_of_lt hpos), div_self h]

/-! ### SimilaritySearch.Search

Search scores every index entry against the query, sorts by similarity
descending via sort.Slice with comparator results[i].Similarity >
results[j].Similarity, clamps topK to the number of results, and returns the
prefix.  sort.Slice guarantees only that the result is sorted with respect to
the comparator; for slices shorter than 12 elements the Go standard library
performs a plain insertion sort, whose output (equal elements kept in their
original relative order, since only strictly-less elements are moved) is the
stable descending sort modelled by sortBySimilarityDesc below. -/

/-- Scoring pass of Search: one SimilarityResult per index entry, in index
order, carrying cosineSimilarity(query, entry.Embedding). -/
noncomputable def scoreEntries (idx : EmbeddingIndex) (q : List ℝ) : List SimilarityResult :=
  idx.embeddings.map (fun e => { entry := e, similarity := cosineSimilarity q e.embedding })

/-- Insert one result into a descending-sorted list, keeping it after every
element with similarity greater than or equal to its own (the stable
placement produced by Go's insertion sort with a strict greater-than
comparator). -/
noncomputable def orderedInsertDesc (x : SimilarityResult) :
    List SimilarityResult → List SimilarityResult
  | [] => [x]
  | y :: ys =>
    if y.similarity ≤ x.similarity then x :: y :: ys
    else y :: orderedInsertDesc x ys

/-- Stable descending sort by similarity, the outcome of the sort.Slice call
in Search for the insertion-sort regime. -/
noncomputable def sortBySimilarityDesc : List SimilarityResult → List SimilarityResult
  | [] => []
  | x :: xs => orderedInsertDesc x (sortBySimilarityDesc xs)

/-- The clamping tail of Search: topK lowered to the result count when it
exceeds it, then the prefix of that length. -/
def takeTopK (results : List SimilarityResult) (topK : Nat) : List SimilarityResult :=
  results.take (if topK > results.length then results.length else topK)

/-- Mirrors SimilaritySearch.Search: empty index short-circuits to an empty
result list; otherwise score all entries, sort descending, clamp topK to the
result count and take that prefix. -/
noncomputable def search (idx : EmbeddingIndex) (queryEmbedding : List ℝ) (topK : Nat) :
    List SimilarityResult :=
  if idx.embeddings.length = 0 then []
  else takeTopK (sortBySimilarityDesc (scoreEntries idx queryEmbedding)) topK

/-- Mirrors SimilaritySearch.FindDuplicates: search with topK equal to the
index size, drop the entry whose ID equals excludeID, keep results whose
similarity reaches the threshold. -/
noncomputable def findDuplicates (idx : EmbeddingIndex) (queryEmbedding : List ℝ)
    (threshold : ℝ) (excludeID : String) : List SimilarityResult :=
  let results := search idx queryEmbedding idx.embeddings.length
  results.filter (fun r => r.entry.id ≠ excludeID ∧ threshold ≤ r.similarity)

/-- Mirrors DuplicateDetector.DetectDuplicates: embed the query code through
the provider (modelled as a function from the code text to a vector or an
error), call FindDuplicates with an EMPTY excludeID, then drop every result
sharing both the query's file path and function name. -/
noncomputable def detectDuplicates (provider : String → Except String (List ℝ))
    (idx : EmbeddingIndex) (threshold : ℝ) (code filePath funcName : String) :
    Except String (List SimilarityResult) :=
  match provider code with
  | .error e => .error ("failed to generate embedding: " ++ e)
  | .ok embedding =>
    let dups := findDuplicates idx embedding threshold ""
    .ok (dups.filter (fun r => r.entry.filePath ≠ filePath ∨ r.entry.funcName ≠ funcName))

theorem length_orderedInsertDesc (x : SimilarityResult) (l : List SimilarityResult) :
    (orderedInsertDesc x l).length = l.length + 1 := by
  induction l with
  | nil => rfl
  | cons y ys ih =>
    unfold orderedInsertDesc
    by_cases h : y.similarity ≤ x.similarity
    · rw [if_pos h]
      simp
    · rw [if_neg h]
      simp [ih]

theorem length_sortBySimilarityDesc (l : List SimilarityResult) :
    (sortBySimilarityDesc l).length = l.length := by
  induction l with
  | nil => rfl
  | cons x xs ih =>
    unfold sortBySimilarityDesc
    rw [length_orderedInsertDesc, ih]
    simp

theorem mem_orderedInsertDesc (a x : SimilarityResult) (l : List SimilarityResult) :
    a ∈ orderedInsertDesc x l ↔ a = x ∨ a ∈ l := by
  induction l with
  | nil => simp [orderedInsertDesc]
  | cons y ys ih =>
    unfold orderedInsertDesc
    by_cases h : y.similarity ≤ x.similarity
    · rw [if_pos h]
      simp
    · rw [if_neg h]
      simp only [List.mem_cons, ih]
      tauto

theorem mem_sortBySimilarityDesc (a : SimilarityResult) (l : List SimilarityResult) :
    a ∈ sortBySimilarityDesc l ↔ a ∈ l := by
  induction l with
  | nil => simp [sortBySimilarityDesc]
  | cons x xs ih =>
    unfold sortBySimilarityDesc
    rw [mem_orderedInsertDesc]
    simp [ih]

/-- Non-increasing similarity, the order guaranteed by the sort.Slice
comparator in Search. -/
def simDescending (l : List SimilarityResult) : Prop :=
  List.Pairwise (fun a b => b.similarity ≤ a.similarity) l

theorem simDescending_orderedInsertDesc (x : SimilarityResult)
    (l : List SimilarityResult) (hl : simDescending l) :
    simDescending (orderedInsertDesc x l) := by
  induction l with
  | nil => simp [orderedInsertDesc, simDescending]
  | cons y ys ih =>
    unfold orderedInsertDesc
    rcases List.pairwise_cons.mp hl with ⟨hy, hys⟩
    by_cases h : y.similarity ≤ x.similarity
    · rw [if_pos h]
      refine List.pairwise_cons.mpr ⟨?_, hl⟩
      intro b hb
      rcases List.mem_cons.mp hb with hb | hb
      · subst hb
        exact h
      · exact le_trans (hy b hb) h
    · rw [if_neg h]
      refine List.pairwise_cons.mpr ⟨?_, ih hys⟩
      intro b hb
      rcases (mem_orderedInsertDesc b x ys).mp hb with hb | hb
      · subst hb
        exact le_of_not_le h
      · exact hy b hb

theorem simDescending_sort (l : List SimilarityResult) :
    simDescending (sortBySimilarityDesc l) := by
  induction l with
  | nil => simp [sortBySimilarityDesc, simDescending]
  | cons x xs ih =>
    exact simDescending_orderedInsertDesc x _ ih

theorem simDescending_take (l : List SimilarityResult) (k : Nat)
    (h : simDescending l) : simDescending (l.take k) :=
  List.Pairwise.sublist (List.take_sublist k l) h

/-! ### HybridProvider

HybridProvider wraps an OllamaProvider (Local) and an optional OpenAIProvider
(Remote, present only when an API key was configured).  Its mutable state is
the useOllama flag, set by NewHybridProvider from a liveness probe and cleared
permanently by the first Local failure.  Network interactions are modelled by
a CallBehavior per GenerateEmbedding call: what Local would answer if
consulted and what Remote would answer if consulted. -/

/-- Outcome of one backend call: a vector or an error message. -/
inductive CallResult where
  | ok (v : List ℝ)
  | err (msg : String)

/-- The environment of one GenerateEmbedding call. -/
structure CallBehavior where
  localResult : CallResult
  remoteResult : CallResult

/-- State of a HybridProvider: useOllama as in the Go struct, and whether the
openai field is non-nil (an API key was configured). -/
structure HybridProvider where
  useOllama : Bool
  openaiConfigured : Bool
deriving DecidableEq

/-- The error returned when neither backend can serve a call. -/
def unavailableMsg : String :=
  "no embedding provider available (Ollama not running, OpenAI key not configured)"

/-- Mirrors HybridProvider.GenerateEmbedding: try Local while useOllama is
set; on a Local failure clear useOllama (stickily) and fall through; the
fall-through path returns Remote's answer when configured, otherwise the
provider-unavailable error.  Returns the call result and the updated state. -/
def hybridGenerateEmbedding (p : HybridProvider) (b : CallBehavior) :
    CallResult × HybridProvider :=
  if p.useOllama then
    match b.localResult with
    | .ok v => (.ok v, p)
    | .err _ =>
      let p2 : HybridProvider := { p with useOllama := false }
      if p2.openaiConfigured then (b.remoteResult, p2)
      else (.err unavailableMsg, p2)
  else
    if p.openaiConfigured then (b.remoteResult, p)
    else (.err unavailableMsg, p)

/-- Mirrors HybridProvider.GetDimension: 768 while Local is active, 1536 when
only Remote is configured, 768 as the default otherwise. -/
def hybridGetDimension (p : HybridProvider) : Nat :=
  if p.useOllama then 768
  else if p.openaiConfigured then 1536
  else 768

/-- Mirrors HybridProvider.GetName. -/
def hybridGetName (p : HybridProvider) : String :=
  if p.useOllama then "Ollama"
  else if p.openaiConfigured then "OpenAI"
  else "None"

/-- A session: a sequence of GenerateEmbedding calls on one provider
instance, threading the sticky state; returns the call results in order and
the final state. -/
def hybridRun (p : HybridProvider) : List CallBehavior → List CallResult × HybridProvider
  | [] => ([], p)
  | b :: bs =>
    let step := hybridGenerateEmbedding p b
    let rest := hybridRun step.2 bs
    (step.1 :: rest.1, rest.2)

/-- Once useOllama is cleared it never comes back, and every later call is
answered purely from Remote (or fails as unavailable): Local is not
re-attempted, so the results do not depend on the local behaviours at all. -/
theorem hybridRun_of_not_useOllama (p : HybridProvider) (bs : List CallBehavior)
    (h : p.useOllama = false) :
    hybridRun p bs =
      (bs.map (fun b => if p.openaiConfigured then b.remoteResult else .err unavailableMsg), p) := by
  induction bs with
  | nil => simp [hybridRun]
  | cons b rest ih =>
    have hstep : hybridGenerateEmbedding p b =
        ((if p.openaiConfigured then b.remoteResult else .err unavailableMsg), p) := by
      unfold hybridGenerateEmbedding
      rw [h]
      by_cases hc : p.openaiConfigured
      · simp [hc]
      · simp [hc]
    simp [hybridRun, hstep, ih]

/-! ### Generator.GenerateForAnalysis instantiated at the HybridProvider

GenerateForAnalysis records the provider's dimension and name in the index
header before the loop, then walks every function of every analyzed file,
calls GenerateEmbedding on a snippet, skips the unit on error, and appends a
CodeEmbedding carrying whatever vector came back — there is no check that the
vector length matches the recorded dimension. -/

/-- Mirrors analysis.FunctionInfo. -/
structure FunctionInfo where
  name : String
  startLine : Int
  endLine : Int
  loc : Int
  complexity : Nat
  parameters : List String
  returnType : String
  isExported : Bool
  comments : String

/-- The slice of analysis.FileAnalysis consumed by GenerateForAnalysis:
path, language, functions.  The Go map over files is modelled as a list in a
fixed iteration order. -/
structure FileAnalysisIn where
  filePath : String
  language : String
  functions : List FunctionInfo

/-- Go fmt rendering of a []string, as produced by the %v verb. -/
def goSliceRepr (xs : List String) : String :=
  "[" ++ String.intercalate " " xs ++ "]"

/-- Mirrors Generator.createCodeSnippet: a comment-style summary of the
function, line by line. -/
def createCodeSnippet (fn : FunctionInfo) (language : String) : String :=
  let s := "// Language: " ++ language ++ "\n" ++ "// Function: " ++ fn.name ++ "\n"
  let s := if fn.parameters ≠ [] then s ++ "// Parameters: " ++ goSliceRepr fn.parameters ++ "\n" else s
  let s := if fn.returnType ≠ "" then s ++ "// Returns: " ++ fn.returnType ++ "\n" else s
  let s := if fn.comments ≠ "" then s ++ "// Comments: " ++ fn.comments ++ "\n" else s
  s ++ "// Complexity: " ++ toString fn.complexity ++ "\n"
    ++ "// Lines: " ++ toString fn.loc ++ "\n"

/-- Mirrors Generator.generateID.  The Go code hashes the string
"filePath:funcName:startLine" with sha256 and keeps the first 8 bytes; the
model keeps the (injective) preimage itself, preserving the property that the
id is a deterministic function of file path, function name and start line. -/
def generateID (filePath funcName : String) (startLine : Int) : String :=
  filePath ++ ":" ++ funcName ++ ":" ++ toString startLine

/-- The nested loops of GenerateForAnalysis flattened into one unit list:
for each file, for each of its functions, the triple (path, language, fn). -/
def flattenUnits (files : List FileAnalysisIn) : List (String × String × FunctionInfo) :=
  files.flatMap (fun fa => fa.functions.map (fun fn => (fa.filePath, fa.language, fn)))

/-- Head of the remaining call environment; an exhausted environment behaves
as a failing backend. -/
def nextBehavior : List CallBehavior → CallBehavior × List CallBehavior
  | [] => (⟨.err "no response", .err "no response"⟩, [])
  | b :: bs => (b, bs)

/-- The embedding loop of GenerateForAnalysis: one GenerateEmbedding call per
unit through the hybrid state machine; on error the unit is skipped, on
success a CodeEmbedding with the returned vector is appended unchecked. -/
def genLoop (p : HybridProvider) (env : List CallBehavior) :
    List (String × String × FunctionInfo) →
    List CodeEmbedding × HybridProvider × List CallBehavior
  | [] => ([], p, env)
  | (fp, lang, fn) :: rest =>
    let nb := nextBehavior env
    let step := hybridGenerateEmbedding p nb.1
    match step.1 with
    | .err _ => genLoop step.2 nb.2 rest
    | .ok emb =>
      let e : CodeEmbedding :=
        { id := generateID fp fn.name fn.startLine
          filePath := fp
          funcName := fn.name
          startLine := fn.startLine
          endLine := fn.endLine
          code := createCodeSnippet fn lang
          embedding := emb
          language := lang }
      let res := genLoop step.2 nb.2 rest
      (e :: res.1, res.2)

/-- Mirrors Generator.GenerateForAnalysis with the hybrid provider: the index
header (Dimension, Provider, Version) is fixed from the provider state before
the loop; the entries are whatever the loop produced. -/
def generateForAnalysisHybrid (p : HybridProvider) (files : List FileAnalysisIn)
    (env : List CallBehavior) : EmbeddingIndex × HybridProvider × List CallBehavior :=
  let res := genLoop p env (flattenUnits files)
  ({ embeddings := res.1
     dimension := hybridGetDimension p
     provider := hybridGetName p
     version := "1.0" }, res.2)

/-- The vectors a hybrid session hands back over n calls, successes only, in
order — the reference for what GenerateForAnalysis stores. -/
def hybridOkVectors (p : HybridProvider) (env : List CallBehavior) : Nat → List (List ℝ)
  | 0 => []
  | n + 1 =>
    let nb := nextBehavior env
    let step := hybridGenerateEmbedding p nb.1
    match step.1 with
    | .ok v => v :: hybridOkVectors step.2 nb.2 n
    | .err _ => hybridOkVectors step.2 nb.2 n

theorem genLoop_embeddings (units : List (String × String × FunctionInfo)) :
    ∀ (p : HybridProvider) (env : List CallBehavior),
      (genLoop p env units).1.map (fun e => e.embedding) =
        hybridOkVectors p env units.length := by
  induction units with
  | nil => intro p env; rfl
  | cons u rest ih =>
    intro p env
    obtain ⟨fp, lang, fn⟩ := u
    unfold genLoop hybridOkVectors
    cases hres : (hybridGenerateEmbedding p (nextBehavior env).1).1 with
    | ok v => simp [hres, ih]
    | err m => simp [hres, ih]

/-! ### runContextBuild (internal/cmd/context.go)

The context build command declares the flags --force (forceRebuild) and
--incremental (incremental, default true), but runContextBuild never reads
either variable after the verbose printout, never loads the previously saved
index, and receives no changed-file set: it always runs the detector and
analyzer over the whole repository and calls GenerateForAnalysis on the full
analysis result, then overwrites .katich/embeddings.json.  The flags and the
on-disk baseline are therefore dead parameters of the model. -/

/-- The embedding-index portion of runContextBuild.  forceRebuild and
incremental mirror the cobra flag variables; baseline mirrors whatever index
is currently persisted on disk.  None of the three is consulted. -/
def runContextBuildIndex (forceRebuild incremental : Bool)
    (baseline : Option EmbeddingIndex) (p : HybridProvider)
    (files : List FileAnalysisIn) (env : List CallBehavior) : EmbeddingIndex :=
  (generateForAnalysisHybrid p files env).1

/-! ### Generator.SaveIndex and LoadIndex

SaveIndex ensures the directory exists, marshals the index to JSON and calls
os.WriteFile(outputPath, data, 0644) directly on the target path — there is
no temporary file and no rename.  os.WriteFile opens the target with
O_WRONLY, O_CREATE and O_TRUNC (truncating any existing file immediately) and
then writes the bytes.  The file system state at the target path is modelled
as the optional file content; the serialized index is the data string.
Failure modes: mkdir or open fails before the file is touched (failOpen), or
the write stops after n bytes leaving a truncated prefix (failPartial n). -/

/-- How one SaveIndex execution ends. -/
inductive WriteOutcome where
  | success
  | failOpen
  | failPartial (n : Nat)

/-- Content at the index path after SaveIndex runs over previous content
prev with serialized data, under the given outcome. -/
def saveIndexFS (prev : Option String) (data : String) (o : WriteOutcome) :
    Option String :=
  match o with
  | .success => some data
  | .failOpen => prev
  | .failPartial n => some (data.take n)

/-- What LoadIndex finds at the index path: no readable file, a file that
json.Unmarshal rejects, or a well-formed index document. -/
inductive DiskDoc where
  | missing
  | corrupt
  | valid (idx : EmbeddingIndex)

/-- Mirrors LoadIndex: read the file (error if missing), unmarshal (error if
corrupt), and return the decoded index as-is — the Version field is never
inspected, so no version compatibility check happens. -/
def loadIndex : DiskDoc → Except String EmbeddingIndex
  | .missing => .error "failed to read index"
  | .corrupt => .error "failed to unmarshal index"
  | .valid idx => .ok idx

/-- The format version GenerateForAnalysis writes into every index. -/
def writerVersion : String := "1.0"

/-! ### GoParser (internal/analysis/parser_go.go)

calculateComplexity starts a counter at 1 and runs ast.Inspect over the
function declaration, incrementing on every IfStmt, ForStmt, RangeStmt,
CaseClause, CommClause, and every BinaryExpr whose operator is LAND or LOR.
The Go AST is modelled as a tree of nodes tagged with exactly the kinds the
visitor distinguishes; every other node kind is nodeOther.  ast.Inspect's
pre-order traversal over the whole subtree is the accumulating visitor
inspectNode below. -/

/-- Binary operator tag: the two short-circuit operators versus the rest. -/
inductive BinOp where
  | land
  | lor
  | otherOp
deriving DecidableEq

mutual
/-- A Go AST node as seen by calculateComplexity: its dynamic kind plus all
child nodes visited by ast.Inspect. -/
inductive GoNode where
  | ifStmt (children : GoNodeList)
  | forStmt (children : GoNodeList)
  | rangeStmt (children : GoNodeList)
  | caseClause (children : GoNodeList)
  | commClause (children : GoNodeList)
  | binaryExpr (op : BinOp) (children : GoNodeList)
  | nodeOther (children : GoNodeList)

/-- Children of a node, as a dedicated list type to keep the recursion
structural. -/
inductive GoNodeList where
  | nil
  | cons (n : GoNode) (l : GoNodeList)
end

mutual
/-- The accumulating visitor: ast.Inspect with the closure of
calculateComplexity, carrying the running complexity counter. -/
def inspectNode (acc : Nat) : GoNode → Nat
  | .ifStmt cs => inspectList (acc + 1) cs
  | .forStmt cs => inspectList (acc + 1) cs
  | .rangeStmt cs => inspectList (acc + 1) cs
  | .caseClause cs => inspectList (acc + 1) cs
  | .commClause cs => inspectList (acc + 1) cs
  | .binaryExpr op cs =>
    inspectList (if op = BinOp.land ∨ op = BinOp.lor then acc + 1 else acc) cs
  | .nodeOther cs => inspectList acc cs

/-- The visitor continued over a child list, left to right. -/
def inspectList (acc : Nat) : GoNodeList → Nat
  | .nil => acc
  | .cons n l => inspectList (inspectNode acc n) l
end

mutual
/-- Declarative count of decision points in a subtree: conditional branches,
loop constructs, switch/select clause arms, and short-circuit logical
operators, one each. -/
def decisionCount : GoNode → Nat
  | .ifStmt cs => 1 + decisionCountList cs
  | .forStmt cs => 1 + decisionCountList cs
  | .rangeStmt cs => 1 + decisionCountList cs
  | .caseClause cs => 1 + decisionCountList cs
  | .commClause cs => 1 + decisionCountList cs
  | .binaryExpr op cs =>
    (if op = BinOp.land ∨ op = BinOp.lor then 1 else 0) + decisionCountList cs
  | .nodeOther cs => decisionCountList cs

/-- Decision points summed over a list of subtrees. -/
def decisionCountList : GoNodeList → Nat
  | .nil => 0
  | .cons n l => decisionCount n + decisionCountList l
end

mutual
theorem inspectNode_eq (n : GoNode) : ∀ acc : Nat, inspectNode acc n = acc + decisionCount n
  | acc => by
    cases n with
    | ifStmt cs =>
      rw [inspectNode, decisionCount, inspectList_eq cs]
      omega
    | forStmt cs =>
      rw [inspectNode, decisionCount, inspectList_eq cs]
      omega
    | rangeStmt cs =>
      rw [inspectNode, decisionCount, inspectList_eq cs]
      omega
    | caseClause cs =>
      rw [inspectNode, decisionCount, inspectList_eq cs]
      omega
    | commClause cs =>
      rw [inspectNode, decisionCount, inspectList_eq cs]
      omega
    | binaryExpr op cs =>
      rw [inspectNode, decisionCount, inspectList_eq cs]
      by_cases h : op = BinOp.land ∨ op = BinOp.lor
      · rw [if_pos h, if_pos h]
        omega
      · rw [if_neg h, if_neg h]
        omega
    | nodeOther cs =>
      rw [inspectNode, decisionCount, inspectList_eq cs]

theorem inspectList_eq (l : GoNodeList) : ∀ acc : Nat, inspectList acc l = acc + decisionCountList l
  | acc => by
    cases l with
    | nil =>
      rw [inspectList, decisionCountList]
      omega
    | cons n rest =>
      rw [inspectList, decisionCountList, inspectList_eq rest, inspectNode_eq n]
      omega
end

/-- Mirrors ast.FuncDecl as consumed by extractFunction: name, positions
(token.Position line numbers of Pos and End), parameter names, doc comment,
and the declaration subtree walked by calculateComplexity. -/
structure FuncDecl where
  name : String
  startLine : Int
  endLine : Int
  params : List String
  doc : String
  tree : GoNode

/-- Mirrors GoParser.calculateComplexity: counter starts at 1 and the visitor
walks the whole declaration subtree. -/
def calculateComplexity (fd : FuncDecl) : Nat :=
  inspectNode 1 fd.tree

/-- ASCII approximation of Go's name.IsExported (first rune upper-case). -/
def isExportedName (name : String) : Bool :=
  match name.data with
  | [] => false
  | c :: _ => c.isUpper

/-- Mirrors GoParser.extractFunction: positions, LOC as
endLine - startLine + 1, parameter names, complexity from
calculateComplexity, doc comment text.  ReturnType is not populated by the
Go code and stays empty. -/
def extractFunction (fd : FuncDecl) : FunctionInfo :=
  { name := fd.name
    startLine := fd.startLine
    endLine := fd.endLine
    loc := fd.endLine - fd.startLine + 1
    complexity := calculateComplexity fd
    parameters := fd.params
    returnType := ""
    isExported := isExportedName fd.name
    comments := fd.doc }

/-! ### Shared helper lemmas about search -/

/-- Every search result comes from an index entry and carries the cosine
similarity of the query against that entry. -/
theorem mem_search (idx : EmbeddingIndex) (q : List ℝ) (k : Nat)
    (r : SimilarityResult) (hr : r ∈ search idx q k) :
    r.entry ∈ idx.embeddings ∧ r.similarity = cosineSimilarity q r.entry.embedding := by
  unfold search at hr
  by_cases h0 : idx.embeddings.length = 0
  · rw [if_pos h0] at hr
    cases hr
  · rw [if_neg h0] at hr
    unfold takeTopK at hr
    have h1 : r ∈ sortBySimilarityDesc (scoreEntries idx q) := List.mem_of_mem_take hr
    have h2 : r ∈ scoreEntries idx q := (mem_sortBySimilarityDesc _ _).mp h1
    unfold scoreEntries at h2
    obtain ⟨e, he, hr2⟩ := List.mem_map.mp h2
    subst hr2
    exact ⟨he, rfl⟩

/-- search on a one-entry index with topK 1 returns that entry scored. -/
theorem search_singleton (e : CodeEmbedding) (d : Nat) (pv vv : String) (q : List ℝ) :
    search ⟨[e], d, pv, vv⟩ q 1 = [⟨e, cosineSimilarity q e.embedding⟩] := by
  unfold search scoreEntries sortBySimilarityDesc takeTopK
  simp [orderedInsertDesc]

/-! ### Claim theorems -/

/-- C7: the similarity score of two vectors a and b of one dimension equals
dot(a,b) divided by the product of their norms, it is 0 whenever either
vector has zero norm, and for every vector with a nonzero component the
self-similarity is exactly 1 (the real-number model computes it with no
floating-point error). -/
theorem claim_C7_cosine_contract :
    (∀ a b : List ℝ, a.length = b.length → sumSq a ≠ 0 → sumSq b ≠ 0 →
      cosineSimilarity a b =
        dotProduct a b / (Real.sqrt (sumSq a) * Real.sqrt (sumSq b))) ∧
    (∀ a b : List ℝ, sumSq a = 0 ∨ sumSq b = 0 → cosineSimilarity a b = 0) ∧
    (∀ v : List ℝ, (∃ x ∈ v, x ≠ 0) → cosineSimilarity v v = 1) := by
  refine ⟨cosineSimilarity_eq, cosineSimilarity_zero_norm, ?_⟩
  intro v hv
  obtain ⟨x, hmem, hx⟩ := hv
  exact cosineSimilarity_self v (ne_of_gt (sumSq_pos_of_mem v x hmem hx))

/-- C7 witness: the contract evaluated at concrete vectors. -/
theorem claim_C7_cosine_contract_witness :
    cosineSimilarity [(0 : ℝ)] [5] = 0 ∧ cosineSimilarity [(1 : ℝ)] [1] = 1 :=
  ⟨claim_C7_cosine_contract.2.1 [(0 : ℝ)] [5]
      (Or.inl (by norm_num [sumSq, dotProduct])),
   claim_C7_cosine_contract.2.2 [(1 : ℝ)] ⟨1, by norm_num, one_ne_zero⟩⟩

/-- C10: cosineSimilarity of two vectors of different lengths is 0, not an
error, and this propagates to the public search interface: a search result
whose entry has a dimension different from the query carries similarity 0. -/
theorem claim_C10_dim_mismatch_zero :
    (∀ a b : List ℝ, a.length ≠ b.length → cosineSimilarity a b = 0) ∧
    (∀ (idx : EmbeddingIndex) (q : List ℝ) (k : Nat) (r : SimilarityResult),
      r ∈ search idx q k → q.length ≠ r.entry.embedding.length →
        r.similarity = 0) := by
  constructor
  · intro a b h
    unfold cosineSimilarity
    rw [if_pos (by simpa using h)]
  · intro idx q k r hr hlen
    obtain ⟨hmem, hsim⟩ := mem_search idx q k r hr
    rw [hsim]
    unfold cosineSimilarity
    rw [if_pos (by simpa using hlen)]

/-- C10 witness: a length-1 vector against a length-2 query scores 0, also
through search. -/
theorem claim_C10_dim_mismatch_zero_witness :
    cosineSimilarity [(1 : ℝ), 2] [(1 : ℝ)] = 0 ∧
    (search ⟨[⟨"s", "s.go", "S", 1, 2, "", [(1 : ℝ)], "Go"⟩], 1, "Ollama", "1.0"⟩
        [(1 : ℝ), 2] 1).map (fun r => r.similarity) = [0] := by
  constructor
  · exact claim_C10_dim_mismatch_zero.1 [(1 : ℝ), 2] [(1 : ℝ)] (by simp)
  · rw [search_singleton]
    simp [claim_C10_dim_mismatch_zero.1 [(1 : ℝ), 2] [(1 : ℝ)] (by simp)]

/-- C9: for every parsed function declaration, the computed cyclomatic
complexity equals 1 plus the number of decision points in the declaration
(conditional branches, loop constructs, switch/select clause arms and
short-circuit logical operators, one each), so a declaration with no
branching has complexity exactly 1; and the recorded length equals
endLine - startLine + 1. -/
theorem claim_C9_complexity_loc (fd : FuncDecl) :
    (extractFunction fd).complexity = 1 + decisionCount fd.tree ∧
    (extractFunction fd).loc = fd.endLine - fd.startLine + 1 := by
  refine ⟨?_, rfl⟩
  show calculateComplexity fd = 1 + decisionCount fd.tree
  unfold calculateComplexity
  exact inspectNode_eq fd.tree 1

/-- C5: hybrid failover is sticky.  On a call that observes a Local failure
the useOllama flag is cleared and never set again; that call itself retries
once against Remote when configured, or fails as provider-unavailable; and
the whole remainder of the session is answered purely from Remote (or fails
as unavailable when Remote is unconfigured), with the Local backend never
re-attempted — the later results do not depend on the local behaviours at
all. -/
theorem claim_C5_sticky_failover (p : HybridProvider) (b : CallBehavior)
    (m : String) (huse : p.useOllama = true) (hfail : b.localResult = .err m) :
    (hybridGenerateEmbedding p b).2.useOllama = false ∧
    (hybridGenerateEmbedding p b).2.openaiConfigured = p.openaiConfigured ∧
    (p.openaiConfigured = true → (hybridGenerateEmbedding p b).1 = b.remoteResult) ∧
    (p.openaiConfigured = false →
      (hybridGenerateEmbedding p b).1 = .err unavailableMsg) ∧
    (∀ bs : List CallBehavior,
      hybridRun (hybridGenerateEmbedding p b).2 bs =
        (bs.map (fun b2 =>
          if p.openaiConfigured then b2.remoteResult else .err unavailableMsg),
         (hybridGenerateEmbedding p b).2)) := by
  have hstep : hybridGenerateEmbedding p b =
      ((if p.openaiConfigured then b.remoteResult else .err unavailableMsg),
       { p with useOllama := false }) := by
    unfold hybridGenerateEmbedding
    rw [huse, hfail]
    by_cases hc : p.openaiConfigured
    · simp [hc]
    · simp [hc]
  rw [hstep]
  refine ⟨rfl, rfl, ?_, ?_, ?_⟩
  · intro hc
    rw [if_pos hc]
  · intro hc
    rw [hc]
    simp
  · intro bs
    exact hybridRun_of_not_useOllama { p with useOllama := false } bs rfl

/-- C5 witness: a session where Local fails on the first call; the second
call would succeed locally but is answered from Remote. -/
theorem claim_C5_sticky_failover_witness :
    (hybridGenerateEmbedding ⟨true, true⟩ ⟨.err "down", .ok [5]⟩).2.useOllama = false ∧
    (hybridGenerateEmbedding ⟨true, true⟩ ⟨.err "down", .ok [5]⟩).1 = .ok [5] ∧
    hybridRun (hybridGenerateEmbedding ⟨true, true⟩ ⟨.err "down", .ok [5]⟩).2
        [⟨.ok [7], .ok [9]⟩] =
      ([.ok [9]], (hybridGenerateEmbedding ⟨true, true⟩ ⟨.err "down", .ok [5]⟩).2) := by
  have h := claim_C5_sticky_failover ⟨true, true⟩ ⟨.err "down", .ok [5]⟩ "down" rfl rfl
  refine ⟨h.1, h.2.2.1 rfl, ?_⟩
  have h2 := h.2.2.2.2 [⟨.ok [7], .ok [9]⟩]
  simpa using h2

/-- C2 counterexample: SaveIndex writes the target path directly, so a write
that fails after 3 bytes replaces the previously persisted index with a
truncated prefix of the new data — the previous index is not left intact. -/
theorem claim_C2_counterexample :
    saveIndexFS (some "OLDINDEX") "NEWDATA" (.failPartial 3) = some "NEW" ∧
    (some "NEW" : Option String) ≠ some "OLDINDEX" := by
  constructor
  · rfl
  · simp

/-- C2 amended: SaveIndex performs a direct write, not an atomic replace.  A
failure before the target file is opened leaves the previous index; once the
write has started, the path holds a truncated prefix of the new data whatever
was there before (the outcome of a partial failure is independent of the
previous content, which has been destroyed), and a successful write holds the
new data. -/
theorem claim_C2_amended (prev prev2 : Option String) (data : String) (n : Nat) :
    saveIndexFS prev data .failOpen = prev ∧
    saveIndexFS prev data (.failPartial n) = saveIndexFS prev2 data (.failPartial n) ∧
    saveIndexFS prev data (.failPartial n) = some (data.take n) ∧
    saveIndexFS prev data .success = some data :=
  ⟨rfl, rfl, rfl, rfl⟩

/-- C8 counterexample: a well-formed index document whose version differs
from the version the writer produces is loaded successfully instead of being
rejected — LoadIndex never inspects the Version field. -/
theorem claim_C8_counterexample :
    loadIndex (.valid ⟨[], 0, "", "999.0"⟩) = .ok ⟨[], 0, "", "999.0"⟩ ∧
    ("999.0" : String) ≠ writerVersion := by
  constructor
  · rfl
  · simp [writerVersion]

/-- C8 amended: LoadIndex never crashes — a missing or unreadable file and a
document the decoder rejects each produce an error value, and every
well-formed document is returned exactly as stored, with no version
compatibility check of any kind. -/
theorem claim_C8_amended :
    (∀ idx : EmbeddingIndex, loadIndex (.valid idx) = .ok idx) ∧
    (loadIndex .missing = .error "failed to read index") ∧
    (loadIndex .corrupt = .error "failed to unmarshal index") ∧
    (∀ d : DiskDoc, (∃ idx, loadIndex d = .ok idx) ∨ (∃ msg, loadIndex d = .error msg)) := by
  refine ⟨fun idx => rfl, rfl, rfl, ?_⟩
  intro d
  cases d with
  | missing => exact Or.inr ⟨_, rfl⟩
  | corrupt => exact Or.inr ⟨_, rfl⟩
  | valid idx => exact Or.inl ⟨idx, rfl⟩

/-- Build input for the C1 counterexample: one file with two functions. -/
def cexFn1 : FunctionInfo :=
  { name := "F1", startLine := 1, endLine := 3, loc := 3, complexity := 1,
    parameters := [], returnType := "", isExported := true, comments := "" }

/-- Second function of the C1 counterexample file. -/
def cexFn2 : FunctionInfo :=
  { name := "F2", startLine := 5, endLine := 9, loc := 5, complexity := 1,
    parameters := [], returnType := "", isExported := true, comments := "" }

/-- The analyzed files fed to the C1 counterexample build. -/
def cexFiles1 : List FileAnalysisIn :=
  [{ filePath := "a.go", language := "Go", functions := [cexFn1, cexFn2] }]

/-- Call environment of the C1 counterexample: the first call succeeds
locally with a 768-dimensional vector; on the second call Local fails and
Remote answers with a 1536-dimensional vector. -/
def cexEnv1 : List CallBehavior :=
  [⟨.ok (List.replicate 768 0), .err "unused"⟩,
   ⟨.err "connection refused", .ok (List.replicate 1536 0)⟩]

/-- C1 counterexample: a build during which the Hybrid provider fails over
from Local to Remote produces an index whose header says provider Ollama and
dimension 768 while its second entry holds a 1536-dimensional vector produced
by OpenAI — the mismatched vector is stored, not rejected, and the index
mixes embedding spaces. -/
theorem claim_C1_counterexample :
    (generateForAnalysisHybrid ⟨true, true⟩ cexFiles1 cexEnv1).1.dimension = 768 ∧
    (generateForAnalysisHybrid ⟨true, true⟩ cexFiles1 cexEnv1).1.provider = "Ollama" ∧
    (generateForAnalysisHybrid ⟨true, true⟩ cexFiles1 cexEnv1).1.embeddings.map
        (fun e => e.embedding.length) = [768, 1536] := by
  refine ⟨rfl, rfl, ?_⟩
  have h : (generateForAnalysisHybrid ⟨true, true⟩ cexFiles1 cexEnv1).1.embeddings =
      [⟨generateID "a.go" "F1" 1, "a.go", "F1", 1, 3, createCodeSnippet cexFn1 "Go",
        List.replicate 768 0, "Go"⟩,
       ⟨generateID "a.go" "F2" 5, "a.go", "F2", 5, 9, createCodeSnippet cexFn2 "Go",
        List.replicate 1536 0, "Go"⟩] := rfl
  rw [h]
  simp only [List.map_cons, List.map_nil, List.length_replicate]

/-- C1 amended: GenerateForAnalysis freezes Provider and Dimension from the
provider state at the start of the build and then stores every successfully
returned vector unchecked — the entry vectors are exactly the session's
successful call results, with no comparison against the recorded dimension,
so a mid-build failover makes the index mix embedding spaces. -/
theorem claim_C1_amended (p : HybridProvider) (files : List FileAnalysisIn)
    (env : List CallBehavior) :
    (generateForAnalysisHybrid p files env).1.dimension = hybridGetDimension p ∧
    (generateForAnalysisHybrid p files env).1.provider = hybridGetName p ∧
    (generateForAnalysisHybrid p files env).1.version = "1.0" ∧
    (generateForAnalysisHybrid p files env).1.embeddings.map (fun e => e.embedding) =
      hybridOkVectors p env (flattenUnits files).length :=
  ⟨rfl, rfl, rfl, genLoop_embeddings (flattenUnits files) p env⟩

/-- Baseline entry for the C4 input: a.go already embedded with vector [1]. -/
def cexBaselineEntry4 : CodeEmbedding :=
  { id := generateID "a.go" "F1" 1, filePath := "a.go", funcName := "F1",
    startLine := 1, endLine := 3, code := "", embedding := [1], language := "Go" }

/-- Baseline index for the C4 input. -/
def cexBaseline4 : EmbeddingIndex :=
  { embeddings := [cexBaselineEntry4], dimension := 1,
    provider := "Ollama", version := "1.0" }

/-- Analyzed files of the C4 build: a.go (unchanged) and b.go (changed). -/
def cexFiles4 : List FileAnalysisIn :=
  [{ filePath := "a.go", language := "Go", functions := [cexFn1] },
   { filePath := "b.go", language := "Go", functions := [cexFn2] }]

/-- Call environment of the C4 build: the Local backend answers fresh
vectors for both files. -/
def cexEnv4 : List CallBehavior :=
  [⟨.ok [2], .err "unused"⟩, ⟨.ok [3], .err "unused"⟩]

/-- C4: the incremental and force flags and the persisted baseline are never
consulted by runContextBuild — every build re-embeds every function of every
file.  Concretely, rebuilding with baseline entries for the unchanged file
a.go re-embeds a.go and stores the fresh vector [2] instead of carrying the
baseline entry [1] over. -/
theorem claim_C4_incremental_ignored :
    (∀ (f1 i1 f2 i2 : Bool) (b1 b2 : Option EmbeddingIndex) (p : HybridProvider)
        (files : List FileAnalysisIn) (env : List CallBehavior),
      runContextBuildIndex f1 i1 b1 p files env =
        runContextBuildIndex f2 i2 b2 p files env) ∧
    (runContextBuildIndex true true (some cexBaseline4) ⟨true, false⟩
        cexFiles4 cexEnv4).embeddings.map (fun e => (e.filePath, e.embedding)) =
      [("a.go", [(2 : ℝ)]), ("b.go", [(3 : ℝ)])] ∧
    cexBaseline4.embeddings.map (fun e => (e.filePath, e.embedding)) =
      [("a.go", [(1 : ℝ)])] ∧
    [(2 : ℝ)] ≠ [(1 : ℝ)] := by
  refine ⟨fun _ _ _ _ _ _ _ _ _ => rfl, ?_, by simp [cexBaseline4, cexBaselineEntry4], by norm_num⟩
  have h : (runContextBuildIndex true true (some cexBaseline4) ⟨true, false⟩
      cexFiles4 cexEnv4).embeddings =
      [⟨generateID "a.go" "F1" 1, "a.go", "F1", 1, 3, createCodeSnippet cexFn1 "Go",
        [2], "Go"⟩,
       ⟨generateID "b.go" "F2" 5, "b.go", "F2", 5, 9, createCodeSnippet cexFn2 "Go",
        [3], "Go"⟩] := rfl
  rw [h]
  simp

/-! ### C3: duplicate-detection self-exclusion -/

/-- findDuplicates over a one-entry index whose entry passes both the id
filter and the threshold returns exactly that scored entry. -/
theorem findDuplicates_singleton (e : CodeEmbedding) (d : Nat) (pv vv : String)
    (q : List ℝ) (t : ℝ) (ex : String) (hid : e.id ≠ ex)
    (ht : t ≤ cosineSimilarity q e.embedding) :
    findDuplicates ⟨[e], d, pv, vv⟩ q t ex = [⟨e, cosineSimilarity q e.embedding⟩] := by
  unfold findDuplicates
  rw [show (⟨[e], d, pv, vv⟩ : EmbeddingIndex).embeddings.length = 1 from rfl,
    search_singleton]
  simp [List.filter_cons, hid, ht]

/-- Index entry for the C3 counterexample: a unit of file f.go named G
starting at line 10. -/
def cexEntry3 : CodeEmbedding :=
  { id := generateID "f.go" "G" 10, filePath := "f.go", funcName := "G",
    startLine := 10, endLine := 20, code := "", embedding := [1, 0],
    language := "Go" }

/-- The C3 counterexample index. -/
def cexIdx3 : EmbeddingIndex :=
  { embeddings := [cexEntry3], dimension := 2, provider := "Ollama", version := "1.0" }

/-- C3 counterexample: the query unit lives in file f.go, function G, line 1
— a DIFFERENT unit (different id) from the index entry at line 10 of the same
file and function.  The entry scores similarity 1, far above the threshold,
yet DetectDuplicates returns an empty list: exclusion is by file path plus
function name, not by unit id, and the distinct unit is conflated with the
query. -/
theorem claim_C3_counterexample :
    detectDuplicates (fun _ => .ok [1, 0]) cexIdx3 (9 / 10) "q" "f.go" "G" = .ok [] ∧
    cexEntry3.id ≠ generateID "f.go" "G" 1 ∧
    (9 / 10 : ℝ) ≤ cosineSimilarity [1, 0] cexEntry3.embedding := by
  have hcos : cosineSimilarity [(1 : ℝ), 0] cexEntry3.embedding = 1 := by
    show cosineSimilarity [(1 : ℝ), 0] [1, 0] = 1
    exact cosineSimilarity_self _ (by norm_num [sumSq, dotProduct])
  have hfd : findDuplicates cexIdx3 [1, 0] (9 / 10) "" = [⟨cexEntry3, 1⟩] := by
    have h := findDuplicates_singleton cexEntry3 2 "Ollama" "1.0" [1, 0] (9 / 10) ""
      (by decide) (by rw [hcos]; norm_num)
    rw [hcos] at h
    exact h
  refine ⟨?_, by decide, by rw [hcos]; norm_num⟩
  have hred : detectDuplicates (fun _ => .ok [1, 0]) cexIdx3 (9 / 10) "q" "f.go" "G"
      = Except.ok ((findDuplicates cexIdx3 [1, 0] (9 / 10) "").filter
          (fun r => decide (r.entry.filePath ≠ "f.go" ∨ r.entry.funcName ≠ "G"))) := rfl
  rw [hred, hfd]
  simp [List.filter_cons, cexEntry3]

/-- C3 amended: FindDuplicates excludes results by the given unit id (a
returned result never carries the excludeID), but DetectDuplicates passes an
EMPTY excludeID and instead drops every result that shares both the query's
file path and function name — so self-exclusion happens only through the
file+symbol filter, and any distinct unit sharing the file and name is
excluded with it. -/
theorem claim_C3_amended :
    (∀ (idx : EmbeddingIndex) (q : List ℝ) (t : ℝ) (ex : String)
        (r : SimilarityResult),
      r ∈ findDuplicates idx q t ex → r.entry.id ≠ ex) ∧
    (∀ (prov : String → Except String (List ℝ)) (idx : EmbeddingIndex) (t : ℝ)
        (c fp fn : String) (res : List SimilarityResult) (r : SimilarityResult),
      detectDuplicates prov idx t c fp fn = .ok res → r ∈ res →
        r.entry.filePath ≠ fp ∨ r.entry.funcName ≠ fn) := by
  constructor
  · intro idx q t ex r hr
    unfold findDuplicates at hr
    have hp := (List.mem_filter.mp hr).2
    exact (of_decide_eq_true hp).1
  · intro prov idx t c fp fn res r hok hr
    unfold detectDuplicates at hok
    cases hc : prov c with
    | error e =>
      rw [hc] at hok
      cases hok
    | ok emb =>
      rw [hc] at hok
      have hres : (findDuplicates idx emb t "").filter
          (fun r2 => decide (r2.entry.filePath ≠ fp ∨ r2.entry.funcName ≠ fn)) = res := by
        injection hok
      rw [← hres] at hr
      exact of_decide_eq_true (List.mem_filter.mp hr).2

/-- Entry in another file for the C3 witness. -/
def cexEntryOther3 : CodeEmbedding :=
  { id := generateID "o.go" "G" 10, filePath := "o.go", funcName := "G",
    startLine := 10, endLine := 20, code := "", embedding := [1, 0],
    language := "Go" }

/-- Index around cexEntryOther3. -/
def cexIdxOther3 : EmbeddingIndex :=
  { embeddings := [cexEntryOther3], dimension := 2, provider := "Ollama",
    version := "1.0" }

/-- C3 amended witness: the id-exclusion fact instantiated on a concrete
FindDuplicates run, and the file+name fact instantiated on a concrete
DetectDuplicates run that returns one result from a different file. -/
theorem claim_C3_amended_witness :
    cexEntry3.id ≠ "zzz" ∧
    (cexEntryOther3.filePath ≠ "f.go" ∨ cexEntryOther3.funcName ≠ "G") := by
  have hcos : cosineSimilarity [(1 : ℝ), 0] [1, 0] = 1 :=
    cosineSimilarity_self _ (by norm_num [sumSq, dotProduct])
  constructor
  · apply claim_C3_amended.1 cexIdx3 [1, 0] (9 / 10) "zzz" ⟨cexEntry3, 1⟩
    have h := findDuplicates_singleton cexEntry3 2 "Ollama" "1.0" [1, 0] (9 / 10) "zzz"
      (by decide) (by show (9 / 10 : ℝ) ≤ cosineSimilarity [1, 0] [1, 0]; rw [hcos]; norm_num)
    show (⟨cexEntry3, 1⟩ : SimilarityResult) ∈ findDuplicates cexIdx3 [1, 0] (9 / 10) "zzz"
    rw [show cexIdx3 = ⟨[cexEntry3], 2, "Ollama", "1.0"⟩ from rfl, h]
    have he : cosineSimilarity [(1 : ℝ), 0] cexEntry3.embedding = 1 := hcos
    rw [he]
    exact List.mem_singleton.mpr rfl
  · apply claim_C3_amended.2 (fun _ => .ok [1, 0]) cexIdxOther3 (9 / 10) "q" "f.go" "G"
      [⟨cexEntryOther3, 1⟩] ⟨cexEntryOther3, 1⟩ ?_ (List.mem_singleton.mpr rfl)
    have he : cosineSimilarity [(1 : ℝ), 0] cexEntryOther3.embedding = 1 := hcos
    have hfd : findDuplicates cexIdxOther3 [1, 0] (9 / 10) "" = [⟨cexEntryOther3, 1⟩] := by
      have h := findDuplicates_singleton cexEntryOther3 2 "Ollama" "1.0" [1, 0] (9 / 10) ""
        (by decide) (by rw [he]; norm_num)
      rw [he] at h
      exact h
    have hred : detectDuplicates (fun _ => .ok [1, 0]) cexIdxOther3 (9 / 10) "q" "f.go" "G"
        = Except.ok ((findDuplicates cexIdxOther3 [1, 0] (9 / 10) "").filter
            (fun r => decide (r.entry.filePath ≠ "f.go" ∨ r.entry.funcName ≠ "G"))) := rfl
    rw [hred, hfd]
    simp [List.filter_cons, cexEntryOther3]

/-! ### C6: search ordering -/

/-- search over a two-entry index where both entries score 0 keeps the
entries in index order: the insertion sort moves an element only past
strictly smaller scores, so equal scores stay in their original relative
order. -/
theorem search_pair_zero (e1 e2 : CodeEmbedding) (d : Nat) (pv vv : String)
    (q : List ℝ) (h1 : cosineSimilarity q e1.embedding = 0)
    (h2 : cosineSimilarity q e2.embedding = 0) :
    search ⟨[e1, e2], d, pv, vv⟩ q 2 = [⟨e1, 0⟩, ⟨e2, 0⟩] := by
  have hscore : scoreEntries ⟨[e1, e2], d, pv, vv⟩ q = [⟨e1, 0⟩, ⟨e2, 0⟩] := by
    unfold scoreEntries
    simp only [List.map_cons, List.map_nil, h1, h2]
  have hsort : sortBySimilarityDesc [⟨e1, 0⟩, ⟨e2, 0⟩] = [⟨e1, 0⟩, ⟨e2, 0⟩] := by
    simp [sortBySimilarityDesc, orderedInsertDesc]
  unfold search
  rw [if_neg (by simp), hscore, hsort]
  simp [takeTopK]

/-- First entry (id b) of the C6 counterexample index. -/
def cexB6 : CodeEmbedding :=
  { id := "b", filePath := "x.go", funcName := "B", startLine := 1, endLine := 2,
    code := "", embedding := [0, 1], language := "Go" }

/-- Second entry (id a) of the C6 counterexample index. -/
def cexA6 : CodeEmbedding :=
  { id := "a", filePath := "y.go", funcName := "A", startLine := 1, endLine := 2,
    code := "", embedding := [0, 1], language := "Go" }

/-- The C6 index with entry b inserted before entry a. -/
def cexIdx6 : EmbeddingIndex :=
  { embeddings := [cexB6, cexA6], dimension := 2, provider := "Ollama",
    version := "1.0" }

/-- The same entries inserted in the opposite order. -/
def cexIdx6r : EmbeddingIndex :=
  { embeddings := [cexA6, cexB6], dimension := 2, provider := "Ollama",
    version := "1.0" }

/-- The two C6 index entries are orthogonal to the query, so they tie at 0. -/
theorem cosine_query6 : cosineSimilarity [(1 : ℝ), 0] [0, 1] = 0 := by
  have ha : sumSq [(1 : ℝ), 0] ≠ 0 := by norm_num [sumSq, dotProduct]
  have hb : sumSq [(0 : ℝ), 1] ≠ 0 := by norm_num [sumSq, dotProduct]
  rw [cosineSimilarity_eq [(1 : ℝ), 0] [0, 1] rfl ha hb]
  have hd : dotProduct [(1 : ℝ), 0] [0, 1] = 0 := by norm_num [dotProduct]
  rw [hd, zero_div]

/-- C6 counterexample: both entries score 0 against the query, the entry ids
are a and b, yet search returns them in index insertion order — b before a
when b was inserted first, a before b otherwise.  The tie is NOT broken by
unit id and the order is NOT independent of insertion order. -/
theorem claim_C6_counterexample :
    (search cexIdx6 [1, 0] 2).map (fun r => r.entry.id) = ["b", "a"] ∧
    (search cexIdx6r [1, 0] 2).map (fun r => r.entry.id) = ["a", "b"] ∧
    (search cexIdx6 [1, 0] 2).map (fun r => r.similarity) = [0, 0] ∧
    cexA6.id ≠ cexB6.id := by
  have hb : cosineSimilarity [(1 : ℝ), 0] cexB6.embedding = 0 := cosine_query6
  have ha : cosineSimilarity [(1 : ℝ), 0] cexA6.embedding = 0 := cosine_query6
  have hs1 : search cexIdx6 [1, 0] 2 = [⟨cexB6, 0⟩, ⟨cexA6, 0⟩] :=
    search_pair_zero cexB6 cexA6 2 "Ollama" "1.0" [1, 0] hb ha
  have hs2 : search cexIdx6r [1, 0] 2 = [⟨cexA6, 0⟩, ⟨cexB6, 0⟩] :=
    search_pair_zero cexA6 cexB6 2 "Ollama" "1.0" [1, 0] ha hb
  refine ⟨?_, ?_, ?_, by decide⟩
  · rw [hs1]; rfl
  · rw [hs2]; rfl
  · rw [hs1]; rfl

/-- C6 amended: search returns the index entries scored by cosine similarity
against the query, sorted in non-increasing order of score, with topK clamped
to the number of entries; the order of tied scores is NOT determined by unit
id (the comparator never looks at ids) and follows the entries' index order
instead. -/
theorem claim_C6_amended (idx : EmbeddingIndex) (q : List ℝ) (k : Nat) :
    simDescending (search idx q k) ∧
    (search idx q k).length = min k idx.embeddings.length ∧
    (∀ r : SimilarityResult, r ∈ search idx q k →
      r.entry ∈ idx.embeddings ∧ r.similarity = cosineSimilarity q r.entry.embedding) := by
  refine ⟨?_, ?_, fun r hr => mem_search idx q k r hr⟩
  · unfold search
    by_cases h0 : idx.embeddings.length = 0
    · rw [if_pos h0]
      exact List.Pairwise.nil
    · rw [if_neg h0]
      exact simDescending_take _ _ (simDescending_sort _)
  · unfold search
    by_cases h0 : idx.embeddings.length = 0
    · rw [if_pos h0]
      simp [h0]
    · rw [if_neg h0]
      have hn : (sortBySimilarityDesc (scoreEntries idx q)).length
          = idx.embeddings.length := by
        rw [length_sortBySimilarityDesc]
        unfold scoreEntries
        simp
      unfold takeTopK
      simp only [List.length_take, hn]
      by_cases hk : k > idx.embeddings.length
      · simp only [if_pos hk]
        omega
      · simp only [if_neg hk]

/-- C6 amended witness: the contract instantiated on the concrete tied index,
with the membership fact evaluated on its first result. -/
theorem claim_C6_amended_witness :
    simDescending (search cexIdx6 [1, 0] 2) ∧
    (search cexIdx6 [1, 0] 2).length = min 2 cexIdx6.embeddings.length ∧
    cexB6 ∈ cexIdx6.embeddings := by
  have h := claim_C6_amended cexIdx6 [1, 0] 2
  refine ⟨h.1, h.2.1, ?_⟩
  have hs1 : search cexIdx6 [1, 0] 2 = [⟨cexB6, 0⟩, ⟨cexA6, 0⟩] :=
    search_pair_zero cexB6 cexA6 2 "Ollama" "1.0" [1, 0] cosine_query6 cosine_query6
  have hmem : (⟨cexB6, 0⟩ : SimilarityResult) ∈ search cexIdx6 [1, 0] 2 := by
    rw [hs1]
    exact List.mem_cons_self _ _
  exact (h.2.2 ⟨cexB6, 0⟩ hmem).1

end Katichai
